import Mathlib

/-!
# Verification of the contacts CRUD core (lista-de-contato-em-nodejs)

A shallow embedding of the repository's validation & deduplication engine
(`src/routes/router.ts` validation module, `src/services/contactService.ts`)
and its persistence adapter (`src/utils/fileHelpers.ts`), together with
theorems settling the specification claims.

JavaScript strings are modelled as `List Char`; `string | number` ids as a
sum type; optional fields as `Option`.  Fallible checks return
`Option VError` exactly as the source returns `string | null`.
-/

namespace Contacts

/-- JavaScript strings, modelled as lists of characters. -/
abbrev Str := List Char

/-- Shorthand to build a `Str` from a Lean string literal. -/
def str (s : String) : Str := s.toList

/-- JS whitespace characters relevant to `String.prototype.trim`. -/
def isWsChar (c : Char) : Bool :=
  c = ' ' || c = '\t' || c = '\n' || c = '\r' || c = '\x0b' || c = '\x0c'

/-- `String.prototype.trim`: strip whitespace from both ends. -/
def jsTrim (s : Str) : Str :=
  ((s.dropWhile isWsChar).reverse.dropWhile isWsChar).reverse

/-- `String.prototype.toLowerCase` (ASCII, as used by the source). -/
def toLowerStr (s : Str) : Str := s.map Char.toLower

/-- `phone.replace(/\D/g, "")`: keep only decimal digits. -/
def digitsOnly (s : Str) : Str := s.filter Char.isDigit

/-- A JS string is truthy iff it is nonempty. -/
def strTruthy (s : Str) : Bool := !s.isEmpty

/-- Contact ids have TypeScript type `string | number`. -/
inductive CId where
  | num (n : Int)
  | str (s : Str)
deriving DecidableEq, Repr

/-- JS truthiness of a `string | number` id: `0` and `""` are falsy. -/
def cidTruthy : CId → Bool
  | .num n => n ≠ 0
  | .str s => strTruthy s

/-- `Nat` printed in decimal, as `String(n)` would. -/
def natToStr (n : Nat) : Str := Nat.toDigits 10 n

/-- `String(n)` for an integer-valued JS number. -/
def intToStr : Int → Str
  | .ofNat n => natToStr n
  | .negSucc n => '-' :: natToStr (n + 1)

/-- `String(id)` for a `string | number` id. -/
def cidToStr : CId → Str
  | .num n => intToStr n
  | .str s => s

/-- The `Contact` record type (`src/types`): required `id`, `fullName`,
`surname`, optional `email`, `phone`. -/
structure Contact where
  id : CId
  fullName : Str
  surname : Str
  email : Option Str
  phone : Option Str
deriving DecidableEq, Repr

/-- `ContactValidation` (creation payload): `id` optional,
`fullName`/`surname` required, `email`/`phone` optional. -/
structure ContactValidation where
  id : Option CId
  fullName : Str
  surname : Str
  email : Option Str
  phone : Option Str
deriving DecidableEq, Repr

/-- `Partial<ContactValidation>` restricted to the four fields the
duplicate/update checks destructure. -/
structure ContactPatch where
  fullName : Option Str
  surname : Option Str
  email : Option Str
  phone : Option Str
deriving DecidableEq, Repr

/-- The validation error messages returned by the engine, one constructor
per distinct message of `contactValidations.ts`. -/
inductive VError where
  | nameTooShort
  | surnameTooShort
  | emailInvalid
  | phoneTooShort
  | dupId (id : CId)
  | dupName (fullName surname : Str)
  | dupEmail (email : Str)
  | dupPhone (phone : Str)
deriving DecidableEq, Repr

/-- `validateBasicFields`: name length ≥ 2 after trim, surname length ≥ 3
after trim, truthy email must contain `@`, truthy phone must keep at least
8 digits after stripping non-digits.  First failing rule wins. -/
def validateBasicFields (c : ContactValidation) : Option VError :=
  if !strTruthy c.fullName || (jsTrim c.fullName).length < 2 then
    some .nameTooShort
  else if !strTruthy c.surname || (jsTrim c.surname).length < 3 then
    some .surnameTooShort
  else if (match c.email with
           | some e => strTruthy e && !(e.contains '@')
           | none => false) then
    some .emailInvalid
  else if (match c.phone with
           | some p => strTruthy p && (digitsOnly p).length < 8
           | none => false) then
    some .phoneTooShort
  else
    none

/-- `validateDuplicateId`: reject a truthy id already present in the list
(strict `===` comparison). -/
def validateDuplicateId (id : CId) (list : List Contact) : Option VError :=
  if cidTruthy id && list.any (fun c => c.id == id) then
    some (.dupId id)
  else
    none

/-- The normalized name-pair key `lower(f).trim() ++ "-" ++ lower(s).trim()`
used by both the validator and the deduplicator. -/
def mkNameKey (f s : Str) : Str :=
  jsTrim (toLowerStr f) ++ '-' :: jsTrim (toLowerStr s)

/-- Name-pair block of `validateDuplicateFields`: runs only when both
`fullName` and `surname` are truthy; compares joint normalized keys. -/
def nameDupCheck (c : ContactPatch) (list : List Contact) : Option VError :=
  match c.fullName, c.surname with
  | some f, some s =>
    if strTruthy f && strTruthy s &&
        list.any (fun e => mkNameKey e.fullName e.surname == mkNameKey f s) then
      some (.dupName f s)
    else
      none
  | _, _ => none

/-- `c.email?.toLowerCase().trim() === emailKey`: does record `x` hold the
same normalized email as the supplied value `e`? -/
def emailMatches (e : Str) (x : Contact) : Bool :=
  match x.email with
  | some xe => jsTrim (toLowerStr xe) == jsTrim (toLowerStr e)
  | none => false

/-- `c.phone?.replace(/\D/g,"") === phoneKey`: does record `x` hold the
same digits-only phone as the supplied value `p`? -/
def phoneMatches (p : Str) (x : Contact) : Bool :=
  match x.phone with
  | some xp => digitsOnly xp == digitsOnly p
  | none => false

/-- Email block of `validateDuplicateFields`: truthy email compared
lowercased and trimmed against each record's email. -/
def emailDupCheck (c : ContactPatch) (list : List Contact) : Option VError :=
  match c.email with
  | some e =>
    if strTruthy e && list.any (emailMatches e) then
      some (.dupEmail e)
    else
      none
  | none => none

/-- Phone block of `validateDuplicateFields`: truthy phone compared
digits-only against each record's phone. -/
def phoneDupCheck (c : ContactPatch) (list : List Contact) : Option VError :=
  match c.phone with
  | some p =>
    if strTruthy p && list.any (phoneMatches p) then
      some (.dupPhone p)
    else
      none
  | none => none

/-- Record `x` does not collide with `r`'s email value (vacuous when `r`
has none). -/
def noEmailConflict (r x : Contact) : Bool :=
  match r.email with
  | some e => !(emailMatches e x)
  | none => true

/-- Record `x` does not collide with `r`'s phone value (vacuous when `r`
has none). -/
def noPhoneConflict (r x : Contact) : Bool :=
  match r.phone with
  | some p => !(phoneMatches p x)
  | none => true

/-- `validateDuplicateFields` (joint name-pair version, the module the
routers import): name-pair, then email, then phone; first match wins. -/
def validateDuplicateFields (c : ContactPatch) (list : List Contact) :
    Option VError :=
  match nameDupCheck c list with
  | some e => some e
  | none =>
    match emailDupCheck c list with
    | some e => some e
    | none => phoneDupCheck c list

/-- Viewing a full creation payload as the `Partial` the duplicate check
receives. -/
def toPatch (c : ContactValidation) : ContactPatch :=
  ⟨some c.fullName, some c.surname, c.email, c.phone⟩

/-- The `if (contact.id) { validateDuplicateId... }` gate of
`validateContactCreation`: the id check only runs for a truthy id. -/
def creationIdCheck (c : ContactValidation) (list : List Contact) :
    Option VError :=
  match c.id with
  | some i => if cidTruthy i then validateDuplicateId i list else none
  | none => none

/-- `validateContactCreation`: basic fields, then the (truthy-gated) id
check, then the duplicate-field check. -/
def validateContactCreation (c : ContactValidation) (list : List Contact) :
    Option VError :=
  match validateBasicFields c with
  | some e => some e
  | none =>
    match creationIdCheck c list with
    | some e => some e
    | none => validateDuplicateFields (toPatch c) list

/-- Name/surname block of `validateContactUpdate`: only fields that are
present are length-checked. -/
def updateNameCheck (c : ContactPatch) : Option VError :=
  match c.fullName with
  | some f =>
    if (jsTrim f).length < 2 then some .nameTooShort
    else
      match c.surname with
      | some s => if (jsTrim s).length < 3 then some .surnameTooShort else none
      | none => none
  | none =>
    match c.surname with
    | some s => if (jsTrim s).length < 3 then some .surnameTooShort else none
    | none => none

/-- Email block of `validateContactUpdate`. -/
def updateEmailCheck (c : ContactPatch) : Option VError :=
  match c.email with
  | some e => if strTruthy e && !(e.contains '@') then some .emailInvalid else none
  | none => none

/-- Phone block of `validateContactUpdate`. -/
def updatePhoneCheck (c : ContactPatch) : Option VError :=
  match c.phone with
  | some p =>
    if strTruthy p && (digitsOnly p).length < 8 then some .phoneTooShort else none
  | none => none

/-- `validateContactUpdate`: per-field structural checks on the supplied
fields, then the duplicate check against the list with every record whose
id strictly equals `currentId` filtered out. -/
def validateContactUpdate (c : ContactPatch) (list : List Contact)
    (currentId : CId) : Option VError :=
  match updateNameCheck c with
  | some e => some e
  | none =>
    match updateEmailCheck c with
    | some e => some e
    | none =>
      match updatePhoneCheck c with
      | some e => some e
      | none =>
        validateDuplicateFields c (list.filter (fun x => !(x.id == currentId)))

/-- `getContactById` (service layer): first record with
`String(c.id) === String(id)`, `null` when absent. -/
def getContactById (id : Str) (list : List Contact) : Option Contact :=
  list.find? (fun c => cidToStr c.id == id)

/-- `deleteContactById` (service layer): filter by strict id inequality;
report `false` (and leave the list as it was) when nothing was removed. -/
def deleteContactById (id : CId) (list : List Contact) :
    Bool × List Contact :=
  let filtered := list.filter (fun c => !(c.id == id))
  if filtered.length = list.length then (false, list) else (true, filtered)

/-- `emailKey` of the deduplicator: `c.email?.toLowerCase().trim()`. -/
def emailKeyOf (c : Contact) : Option Str :=
  c.email.map (fun e => jsTrim (toLowerStr e))

/-- `phoneKey` of the deduplicator: `c.phone?.replace(/\D/g, "")`. -/
def phoneKeyOf (c : Contact) : Option Str := c.phone.map digitsOnly

/-- `nameKey` of the deduplicator (the same combined key as validation). -/
def nameKeyOf (c : Contact) : Str := mkNameKey c.fullName c.surname

/-- `key && seen.has(key)`: an absent or empty key never counts as seen. -/
def keySeen : Option Str → List Str → Bool
  | some k, seen => strTruthy k && seen.contains k
  | none, _ => false

/-- `if (key) seen.add(key)`: only truthy keys are remembered. -/
def keyAdd : Option Str → List Str → List Str
  | some k, seen => if strTruthy k then k :: seen else seen
  | none, seen => seen

/-- The forward pass of `removeDuplicateContacts`: three seen-sets, a
record is dropped (and counted) iff one of its truthy email/phone keys or
its name key was already seen on a kept record. -/
def dedupAux : List Contact → List Str → List Str → List Str →
    List Contact × Nat
  | [], _, _, _ => ([], 0)
  | c :: rest, sE, sP, sN =>
    if keySeen (emailKeyOf c) sE || keySeen (phoneKeyOf c) sP ||
        sN.contains (nameKeyOf c) then
      let r := dedupAux rest sE sP sN
      (r.1, r.2 + 1)
    else
      let r := dedupAux rest (keyAdd (emailKeyOf c) sE)
        (keyAdd (phoneKeyOf c) sP) (nameKeyOf c :: sN)
      (c :: r.1, r.2)

/-- The statistics object returned by `removeDuplicateContacts`, plus the
cleaned list it persists. -/
structure DedupResult where
  cleaned : List Contact
  removidos : Nat
  totalAntes : Nat
  totalDepois : Nat
deriving DecidableEq, Repr

/-- `removeDuplicateContacts` (service layer), as a pure function of the
loaded list. -/
def removeDuplicateContacts (list : List Contact) : DedupResult :=
  let r := dedupAux list [] [] []
  ⟨r.1, r.2, list.length, r.1.length⟩

/-! ## Persistence adapter (`fileHelpers.ts`)

The stored file is modelled as its character content.  `JSON.parse` /
`JSON.stringify` are modelled by an executable JSON value type with a
fuel-based parser and a printer; parsed objects keep their key order, as
JS objects do. -/

/-- JSON values as produced by `JSON.parse`; objects keep key order. -/
inductive JVal where
  | jnull
  | jbool (b : Bool)
  | jnum (n : Int)
  | jstr (s : Str)
  | jarr (elems : List JVal)
  | jobj (fields : List (Str × JVal))
deriving Repr

/-- Property lookup on a parsed object: with duplicate keys, `JSON.parse`
keeps the last occurrence. -/
def getField (fields : List (Str × JVal)) (k : Str) : Option JVal :=
  (fields.reverse.find? (fun kv => kv.1 == k)).map (fun kv => kv.2)

/-- `typeof v === "string"`. -/
def isJStr : Option JVal → Bool
  | some (.jstr _) => true
  | _ => false

/-- `typeof v === "number"`. -/
def isJNum : Option JVal → Bool
  | some (.jnum _) => true
  | _ => false

/-- `v === undefined || typeof v === "string"`. -/
def isAbsentOrJStr : Option JVal → Bool
  | none => true
  | some (.jstr _) => true
  | _ => false

/-- `isValidContact` of `fileHelpers.ts`, byte-faithful to the source's
operator precedence: the `&&` chain binds tighter than the leading `||`,
so a string `id` alone already satisfies the check. -/
def isValidContact (v : JVal) : Bool :=
  match v with
  | .jobj o =>
    isJStr (getField o (str "id")) ||
      (isJNum (getField o (str "id")) &&
        isJStr (getField o (str "fullName")) &&
        isJStr (getField o (str "surname")) &&
        isAbsentOrJStr (getField o (str "email")) &&
        isAbsentOrJStr (getField o (str "phone")))
  | .jarr _ => false
  | _ => false

/-- JSON insignificant whitespace. -/
def isJsonWs (c : Char) : Bool :=
  c = ' ' || c = '\t' || c = '\n' || c = '\r'

/-- Skip JSON whitespace. -/
def skipWs (s : Str) : Str := s.dropWhile isJsonWs

/-- Unescape map for the single-character JSON escapes. -/
def unescChar (c : Char) : Option Char :=
  if c = '"' then some '"'
  else if c = '\\' then some '\\'
  else if c = '/' then some '/'
  else if c = 'b' then some '\x08'
  else if c = 'f' then some '\x0c'
  else if c = 'n' then some '\n'
  else if c = 'r' then some '\r'
  else if c = 't' then some '\t'
  else none

/-- Value of a hexadecimal digit. -/
def hexVal (c : Char) : Option Nat :=
  if '0' ≤ c ∧ c ≤ '9' then some (c.toNat - '0'.toNat)
  else if 'a' ≤ c ∧ c ≤ 'f' then some (c.toNat - 'a'.toNat + 10)
  else if 'A' ≤ c ∧ c ≤ 'F' then some (c.toNat - 'A'.toNat + 10)
  else none

/-- Parse the body of a JSON string (the opening quote already consumed),
returning the decoded characters and the rest of the input. -/
def parseStrBody : Str → Option (Str × Str)
  | [] => none
  | '"' :: rest => some ([], rest)
  | '\\' :: 'u' :: h1 :: h2 :: h3 :: h4 :: rest =>
    match hexVal h1, hexVal h2, hexVal h3, hexVal h4 with
    | some a, some b, some c, some d =>
      (parseStrBody rest).map
        (fun p => (Char.ofNat (((a * 16 + b) * 16 + c) * 16 + d) :: p.1, p.2))
    | _, _, _, _ => none
  | '\\' :: c :: rest =>
    match unescChar c with
    | some u => (parseStrBody rest).map (fun p => (u :: p.1, p.2))
    | none => none
  | c :: rest =>
    if c.toNat < 32 then none
    else (parseStrBody rest).map (fun p => (c :: p.1, p.2))

/-- Numeric value of a list of decimal digits. -/
def digitsToNat (ds : Str) : Nat :=
  ds.foldl (fun a c => a * 10 + (c.toNat - '0'.toNat)) 0

/-- Parse a JSON integer (the model restricts JSON numbers to integers,
the only numeric shape occurring in stored contacts). -/
def parseNum (s : Str) : Option (JVal × Str) :=
  match s with
  | '-' :: rest =>
    let ds := rest.takeWhile Char.isDigit
    if ds.isEmpty then none
    else some (.jnum (-(digitsToNat ds : Int)), rest.dropWhile Char.isDigit)
  | _ =>
    let ds := s.takeWhile Char.isDigit
    if ds.isEmpty then none
    else some (.jnum (digitsToNat ds : Int), s.dropWhile Char.isDigit)

mutual

/-- Fuel-based JSON value parser; returns the value and remaining input. -/
def parseVal : Nat → Str → Option (JVal × Str)
  | 0, _ => none
  | fuel + 1, s =>
    match skipWs s with
    | '{' :: rest => parseObjBody fuel rest
    | '[' :: rest => parseArrBody fuel rest
    | '"' :: rest => (parseStrBody rest).map (fun p => (.jstr p.1, p.2))
    | 't' :: 'r' :: 'u' :: 'e' :: rest => some (.jbool true, rest)
    | 'f' :: 'a' :: 'l' :: 's' :: 'e' :: rest => some (.jbool false, rest)
    | 'n' :: 'u' :: 'l' :: 'l' :: rest => some (.jnull, rest)
    | rest => parseNum rest

/-- Parse an object after the opening brace. -/
def parseObjBody : Nat → Str → Option (JVal × Str)
  | 0, _ => none
  | fuel + 1, s =>
    match skipWs s with
    | '}' :: rest => some (.jobj [], rest)
    | rest => parseMembers fuel rest []

/-- Parse the members of an object, accumulating key/value pairs. -/
def parseMembers : Nat → Str → List (Str × JVal) → Option (JVal × Str)
  | 0, _, _ => none
  | fuel + 1, s, acc =>
    match s with
    | '"' :: rest =>
      match parseStrBody rest with
      | some (k, r1) =>
        match skipWs r1 with
        | ':' :: r2 =>
          match parseVal fuel r2 with
          | some (v, r3) =>
            match skipWs r3 with
            | ',' :: r4 => parseMembers fuel (skipWs r4) (acc ++ [(k, v)])
            | '}' :: r4 => some (.jobj (acc ++ [(k, v)]), r4)
            | _ => none
          | none => none
        | _ => none
      | none => none
    | _ => none

/-- Parse an array after the opening bracket. -/
def parseArrBody : Nat → Str → Option (JVal × Str)
  | 0, _ => none
  | fuel + 1, s =>
    match skipWs s with
    | ']' :: rest => some (.jarr [], rest)
    | rest => parseElems fuel rest []

/-- Parse the elements of an array. -/
def parseElems : Nat → Str → List JVal → Option (JVal × Str)
  | 0, _, _ => none
  | fuel + 1, s, acc =>
    match parseVal fuel s with
    | some (v, r1) =>
      match skipWs r1 with
      | ',' :: r2 => parseElems fuel r2 (acc ++ [v])
      | ']' :: r2 => some (.jarr (acc ++ [v]), r2)
      | _ => none
    | none => none

end

/-- `JSON.parse` on one stored line: the whole input must be consumed up
to trailing whitespace. -/
def parseJson (s : Str) : Option JVal :=
  match parseVal (s.length + 2) s with
  | some (v, rest) => if (skipWs rest).isEmpty then some v else none
  | none => none

/-- Join a list of strings with a separator (`Array.prototype.join`). -/
def joinWith (sep : Str) : List Str → Str
  | [] => []
  | [x] => x
  | x :: y :: xs => x ++ sep ++ joinWith sep (y :: xs)

/-- Hexadecimal digit character (lowercase). -/
def hexDigit (n : Nat) : Char :=
  if n < 10 then Char.ofNat ('0'.toNat + n) else Char.ofNat ('a'.toNat + n - 10)

/-- `JSON.stringify` escaping of one character inside a string literal. -/
def escChar (c : Char) : Str :=
  if c = '"' then ['\\', '"']
  else if c = '\\' then ['\\', '\\']
  else if c = '\n' then ['\\', 'n']
  else if c = '\r' then ['\\', 'r']
  else if c = '\t' then ['\\', 't']
  else if c = '\x08' then ['\\', 'b']
  else if c = '\x0c' then ['\\', 'f']
  else if c.toNat < 32 then
    ['\\', 'u', '0', '0', hexDigit (c.toNat / 16), hexDigit (c.toNat % 16)]
  else [c]

/-- A JSON string literal for `s`, quoted and escaped. -/
def quoteStr (s : Str) : Str :=
  '"' :: s.foldr (fun c acc => escChar c ++ acc) ['"']

mutual

/-- `JSON.stringify` (minimal form: no added whitespace, keys in stored
order). -/
def stringifyJson : JVal → Str
  | .jnull => str "null"
  | .jbool true => str "true"
  | .jbool false => str "false"
  | .jnum n => intToStr n
  | .jstr s => quoteStr s
  | .jarr es => '[' :: stringifyElems es ++ [']']
  | .jobj fs => '{' :: stringifyFields fs ++ ['}']

/-- Comma-joined serialization of object members. -/
def stringifyFields : List (Str × JVal) → Str
  | [] => []
  | [kv] => quoteStr kv.1 ++ ':' :: stringifyJson kv.2
  | kv :: kv' :: rest =>
    quoteStr kv.1 ++ ':' :: stringifyJson kv.2 ++
      ',' :: stringifyFields (kv' :: rest)

/-- Comma-joined serialization of array elements. -/
def stringifyElems : List JVal → Str
  | [] => []
  | [v] => stringifyJson v
  | v :: v' :: rest => stringifyJson v ++ ',' :: stringifyElems (v' :: rest)

end

/-- `data.split("\n")`: split file content at every newline; adjacent
newlines yield empty lines, the empty file yields one empty line. -/
def splitNL : Str → List Str
  | [] => [[]]
  | c :: cs =>
    match splitNL cs with
    | [] => [[c]]
    | l :: ls => if c = '\n' then [] :: l :: ls else (c :: l) :: ls

/-- The line-processing pipeline of `readContactList`: trim each line,
drop blank lines, parse each survivor as JSON, drop lines that fail to
parse or fail `isValidContact`. -/
def readLines (ls : List Str) : List JVal :=
  ((ls.map jsTrim).filter (fun l => !l.isEmpty)).filterMap
    (fun line =>
      match parseJson line with
      | some v => if isValidContact v then some v else none
      | none => none)

/-- `readContactList` applied to the content of an existing storage file. -/
def readContactFile (content : Str) : List JVal :=
  readLines (splitNL content)

/-- Possible outcomes of reading the storage file. -/
inductive FsRead where
  | content (s : Str)
  | enoent
  | ioError
deriving DecidableEq

/-- `readContactList` including its error handling: a missing file
(`ENOENT`) and any other read error both produce the empty list; the call
itself never fails. -/
def readContactList : FsRead → List JVal
  | .content s => readContactFile s
  | .enoent => []
  | .ioError => []

/-- `saveContactList`: drop records failing `isValidContact`, stringify
each survivor, join with newlines; the result is the new file content. -/
def saveContactList (l : List JVal) : Str :=
  joinWith ['\n'] ((l.filter isValidContact).map stringifyJson)

/-- One load–save cycle on a file's content. -/
def loadSaveCycle (content : Str) : Str :=
  saveContactList (readContactFile content)

/-! ## Helper lemmas -/

/-- The kept/removed counts of the dedup pass partition the input. -/
theorem dedupAux_length (l : List Contact) :
    ∀ sE sP sN, (dedupAux l sE sP sN).1.length + (dedupAux l sE sP sN).2 =
      l.length := by
  induction l with
  | nil => intro sE sP sN; simp [dedupAux]
  | cons c rest ih =>
    intro sE sP sN
    simp only [dedupAux]
    split
    · have := ih sE sP sN
      simp only [List.length_cons]
      omega
    · have := ih (keyAdd (emailKeyOf c) sE) (keyAdd (phoneKeyOf c) sP)
        (nameKeyOf c :: sN)
      simp only [List.length_cons]
      omega

/-- Passing the basic checks forces both name fields to be truthy. -/
theorem basic_none_truthy (c : ContactValidation)
    (h : validateBasicFields c = none) :
    strTruthy c.fullName = true ∧ strTruthy c.surname = true := by
  unfold validateBasicFields at h
  split_ifs at h with h1 h2 h3 h4
  simp only [Bool.or_eq_true, Bool.not_eq_true', not_or] at h1 h2
  constructor
  · cases hfn : strTruthy c.fullName
    · exact absurd hfn h1.1
    · rfl
  · cases hsn : strTruthy c.surname
    · exact absurd hsn h2.1
    · rfl

/-- `validateBasicFields` only ever returns a structural error. -/
theorem basic_shape (c : ContactValidation) (e : VError)
    (h : validateBasicFields c = some e) :
    e = .nameTooShort ∨ e = .surnameTooShort ∨ e = .emailInvalid ∨
      e = .phoneTooShort := by
  unfold validateBasicFields at h
  split_ifs at h <;> simp_all

/-- `creationIdCheck` only ever returns an id-collision error. -/
theorem creationIdCheck_shape (c : ContactValidation) (l : List Contact)
    (e : VError) (h : creationIdCheck c l = some e) : ∃ i, e = .dupId i := by
  unfold creationIdCheck validateDuplicateId at h
  split at h
  · split_ifs at h
    · exact ⟨_, by injection h with h2; exact h2.symm⟩
  · exact Option.noConfusion h

/-- `emailDupCheck` only ever returns a duplicate-email error. -/
theorem emailDupCheck_shape (p : ContactPatch) (l : List Contact) (e : VError)
    (h : emailDupCheck p l = some e) : ∃ em, e = .dupEmail em := by
  unfold emailDupCheck at h
  split at h
  · split_ifs at h
    · exact ⟨_, by injection h with h2; exact h2.symm⟩
  · exact Option.noConfusion h

/-- `phoneDupCheck` only ever returns a duplicate-phone error. -/
theorem phoneDupCheck_shape (p : ContactPatch) (l : List Contact) (e : VError)
    (h : phoneDupCheck p l = some e) : ∃ ph, e = .dupPhone ph := by
  unfold phoneDupCheck at h
  split at h
  · split_ifs at h
    · exact ⟨_, by injection h with h2; exact h2.symm⟩
  · exact Option.noConfusion h

/-- Equal normalized fields give equal combined name keys. -/
theorem mkNameKey_eq_of {f1 s1 f2 s2 : Str}
    (hf : jsTrim (toLowerStr f1) = jsTrim (toLowerStr f2))
    (hs : jsTrim (toLowerStr s1) = jsTrim (toLowerStr s2)) :
    mkNameKey f1 s1 = mkNameKey f2 s2 := by
  unfold mkNameKey
  rw [hf, hs]

/-- With equal normalized full names, equal combined keys force equal
normalized surnames (the `"-"` separator cancels). -/
theorem mkNameKey_surname_eq {f1 s1 f2 s2 : Str}
    (hf : jsTrim (toLowerStr f1) = jsTrim (toLowerStr f2))
    (hk : mkNameKey f1 s1 = mkNameKey f2 s2) :
    jsTrim (toLowerStr s1) = jsTrim (toLowerStr s2) := by
  unfold mkNameKey at hk
  rw [hf] at hk
  have h2 := List.append_cancel_left hk
  exact (List.cons.injEq _ _ _ _).mp h2 |>.2

/-- When both supplied name fields are truthy and some record matches the
combined key, `nameDupCheck` reports the duplicate name-pair. -/
theorem nameDupCheck_some (f s : Str) (em ph : Option Str) (l : List Contact)
    (hf : strTruthy f = true) (hs : strTruthy s = true)
    (hany : l.any
      (fun e => mkNameKey e.fullName e.surname == mkNameKey f s) = true) :
    nameDupCheck ⟨some f, some s, em, ph⟩ l = some (.dupName f s) := by
  unfold nameDupCheck
  simp [hf, hs, hany]

/-- A duplicate name-pair report from `nameDupCheck` names the supplied
fields and comes with a matching record. -/
theorem nameDupCheck_inv (p : ContactPatch) (l : List Contact) (e : VError)
    (h : nameDupCheck p l = some e) :
    ∃ f s, p.fullName = some f ∧ p.surname = some s ∧ e = .dupName f s ∧
      ∃ x ∈ l, mkNameKey x.fullName x.surname = mkNameKey f s := by
  unfold nameDupCheck at h
  split at h
  case _ f s heq1 heq2 =>
    split_ifs at h with hc
    · simp only [Bool.and_eq_true, List.any_eq_true, beq_iff_eq] at hc
      injection h with h2
      exact ⟨f, s, heq1, heq2, h2.symm, hc.2⟩
  case _ => exact Option.noConfusion h

/-! ## Concrete inputs used by the claims -/

/-- A well-formed stored line. -/
def c2goodLine1 : Str := str "\x7b\"id\":1,\"fullName\":\"Ana\",\"surname\":\"Silva\"\x7d"

/-- A line failing the documented shape check: no `fullName`/`surname`,
only a string `id`. -/
def c2shapeBadLine : Str := str "\x7b\"id\":\"x\"\x7d"

/-- A second well-formed stored line. -/
def c2goodLine2 : Str := str "\x7b\"id\":2,\"fullName\":\"Bob\",\"surname\":\"Stone\"\x7d"

/-- A stored file with two well-formed lines around one shape-malformed
line. -/
def c2file : Str := c2goodLine1 ++ '\n' :: c2shapeBadLine ++ '\n' :: c2goodLine2

/-- The parse of `c2goodLine1`. -/
def c2obj1 : JVal :=
  .jobj [(str "id", .jnum 1), (str "fullName", .jstr (str "Ana")),
    (str "surname", .jstr (str "Silva"))]

/-- The parse of `c2shapeBadLine`. -/
def c2objBad : JVal := .jobj [(str "id", .jstr (str "x"))]

/-- The parse of `c2goodLine2`. -/
def c2obj2 : JVal :=
  .jobj [(str "id", .jnum 2), (str "fullName", .jstr (str "Bob")),
    (str "surname", .jstr (str "Stone"))]

/-- Record with an email key only. -/
def c3a : Contact := ⟨.num 0, str "Aa", str "Aaa", some (str "e@x"), none⟩

/-- Record sharing `c3a`'s email key but introducing a phone key. -/
def c3b : Contact :=
  ⟨.num 1, str "Bb", str "Bbb", some (str "e@x"), some (str "12345678")⟩

/-- Record sharing only `c3b`'s phone key. -/
def c3c : Contact := ⟨.num 2, str "Cc", str "Ccc", none, some (str "12345678")⟩

/-- The four-record deduplication example of the specification (names made
distinct so only email/phone keys collide). -/
def c3r1 : Contact := ⟨.num 1, str "Aa", str "Aaa", some (str "a@x.com"), none⟩

/-- Second record: same email as `c3r1`. -/
def c3r2 : Contact := ⟨.num 2, str "Bb", str "Bbb", some (str "a@x.com"), none⟩

/-- Third record: a formatted phone number. -/
def c3r3 : Contact :=
  ⟨.num 3, str "Cc", str "Ccc", none, some (str "111-222-3333")⟩

/-- Fourth record: same phone digits as `c3r3`, unformatted. -/
def c3r4 : Contact := ⟨.num 4, str "Dd", str "Ddd", none, some (str "1112223333")⟩

/-- The record being updated in the C4 counterexample. -/
def c4target : Contact := ⟨.num 1, str "Ana", str "Silva", some (str "a@x"), none⟩

/-- A different record holding the same email. -/
def c4other : Contact := ⟨.num 2, str "Bob", str "Stone", some (str "a@x"), none⟩

/-! ## Claim theorems -/

/-- **C2** — the structural shape check of `readContactList` does not do
what the claim states: because `&&` binds tighter than the leading `||` in
`isValidContact`, an object whose `id` is a string passes the check with no
`fullName`/`surname` at all, so the shape-malformed middle line of `c2file`
is kept and three records are returned where the claim demands exactly the
two well-formed ones. -/
theorem claim_C2 :
    readContactFile c2file = [c2obj1, c2objBad, c2obj2] ∧
    isValidContact c2objBad = true ∧
    getField [(str "id", JVal.jstr (str "x"))] (str "fullName") = none ∧
    (readContactFile c2file).length ≠ 2 := by
  refine ⟨rfl, rfl, rfl, ?_⟩
  intro h
  rw [show readContactFile c2file = [c2obj1, c2objBad, c2obj2] from rfl] at h
  simp at h

/-- **C3 counterexample** — the claim's general statement "the first
(lowest-index) record for any normalized key survives" is false: in
`[c3a, c3b, c3c]`, record `c3b` is the first (and only record besides
`c3c`) bearing phone key `"12345678"`, yet it is removed (its email key
matched `c3a`), so the key's first bearer does not survive. -/
theorem claim_C3_counterexample :
    phoneKeyOf c3a = none ∧
    phoneKeyOf c3b = some (str "12345678") ∧
    (removeDuplicateContacts [c3a, c3b, c3c]).cleaned = [c3a, c3c] ∧
    c3b ∉ (removeDuplicateContacts [c3a, c3b, c3c]).cleaned := by decide

/-- **C4 counterexample** — the claim quantifies over every record set
containing the target id: with a second record (different id) holding the
same email, updating the target to exactly its own current values is
rejected as a duplicate email, so the claimed `null` result is false. -/
theorem claim_C4_counterexample :
    c4target.id = CId.num 1 ∧
    validateContactUpdate
      ⟨some c4target.fullName, some c4target.surname, c4target.email,
        c4target.phone⟩
      [c4target, c4other] (CId.num 1) = some (.dupEmail (str "a@x")) := by
  decide

/-- **C5 counterexample** — a supplied id of `0` is falsy, so the
`if (contact.id)` gate skips the id-uniqueness check: a candidate with
id `0` is accepted even though an existing record has id `0`. -/
theorem claim_C5_counterexample :
    ([⟨CId.num 0, str "Bob", str "Stone", none, none⟩] : List Contact).any
      (fun c => c.id == CId.num 0) = true ∧
    validateContactCreation ⟨some (CId.num 0), str "Ana", str "Silva", none, none⟩
      [⟨CId.num 0, str "Bob", str "Stone", none, none⟩] = none := by decide

/-- **C6 counterexample** — a present but empty phone has fewer than 8
digits, yet both creation and update accept it: the empty string is falsy,
so the phone rule never runs. -/
theorem claim_C6_counterexample :
    (digitsOnly (str "")).length < 8 ∧
    validateContactCreation ⟨none, str "Ana", str "Silva", none, some (str "")⟩
      [] = none ∧
    validateContactUpdate ⟨none, none, none, some (str "")⟩ [] (CId.num 1) =
      none := by decide

/-- **C7 counterexample** — a storage file consisting of one newline is
not reproduced by `saveContactList(readContactList())`: the blank lines
are dropped on read and never re-emitted, so the cycle rewrites the file
to empty content. -/
theorem claim_C7_counterexample :
    loadSaveCycle (str "\n") = str "" ∧ loadSaveCycle (str "\n") ≠ str "\n" := by
  decide

/-- **C8** — `readContactList` on a nonexistent storage file (`ENOENT`)
returns the empty sequence rather than an error; any other read failure
also degrades to the empty sequence, and the call is total. -/
theorem claim_C8 :
    readContactList FsRead.enoent = [] ∧ readContactList FsRead.ioError = [] :=
  ⟨rfl, rfl⟩

/-- **C9** — deletion and lookup disagree on id typing: for a record set
whose only record has numeric id `n`, `deleteContactById (String n)`
compares with strict equality, removes nothing and reports `false`, while
`getContactById (String n)` compares `String(c.id) === String(id)` and
returns the record. -/
theorem claim_C9 (n : Int) (fN sN : Str) (em ph : Option Str) :
    deleteContactById (.str (intToStr n)) [⟨.num n, fN, sN, em, ph⟩] =
      (false, [⟨.num n, fN, sN, em, ph⟩]) ∧
    getContactById (intToStr n) [⟨.num n, fN, sN, em, ph⟩] =
      some ⟨.num n, fN, sN, em, ph⟩ := by
  constructor
  · simp [deleteContactById]
  · simp [getContactById, cidToStr]

/-- **C10** — the statistics of `removeDuplicateContacts` satisfy the
counting invariant: `totalAntes` is the input length, `totalDepois` the
kept length, and `removidos + totalDepois = totalAntes`. -/
theorem claim_C10 (l : List Contact) :
    (removeDuplicateContacts l).totalAntes = l.length ∧
    (removeDuplicateContacts l).totalDepois =
      (removeDuplicateContacts l).cleaned.length ∧
    (removeDuplicateContacts l).removidos +
      (removeDuplicateContacts l).totalDepois =
      (removeDuplicateContacts l).totalAntes := by
  refine ⟨rfl, rfl, ?_⟩
  show (dedupAux l [] [] []).2 + (dedupAux l [] [] []).1.length = l.length
  have := dedupAux_length l [] [] []
  omega

end Contacts

namespace Contacts

/-- **C1** — the duplicate-name check of creation validation compares
`fullName` and `surname` jointly after normalization: (1) once the basic
and id checks pass, a candidate matching some existing record on both
normalized fields is rejected as a duplicate name-pair; (2) when every
existing record shares the candidate's normalized full name but differs in
normalized surname, no duplicate-name rejection can arise; (3) against the
existing record `{id:1, "Ana", "Silva"}`, the candidate
`{"ana", "SILVA"}` is rejected as a duplicate name-pair. -/
theorem claim_C1 :
    (∀ (l : List Contact) (c : ContactValidation),
      validateBasicFields c = none →
      creationIdCheck c l = none →
      (∃ e ∈ l,
        jsTrim (toLowerStr e.fullName) = jsTrim (toLowerStr c.fullName) ∧
        jsTrim (toLowerStr e.surname) = jsTrim (toLowerStr c.surname)) →
      validateContactCreation c l = some (.dupName c.fullName c.surname)) ∧
    (∀ (l : List Contact) (c : ContactValidation),
      (∀ e ∈ l,
        jsTrim (toLowerStr e.fullName) = jsTrim (toLowerStr c.fullName) ∧
        jsTrim (toLowerStr e.surname) ≠ jsTrim (toLowerStr c.surname)) →
      ∀ f s, validateContactCreation c l ≠ some (.dupName f s)) ∧
    validateContactCreation ⟨none, str "ana", str "SILVA", none, none⟩
      [⟨CId.num 1, str "Ana", str "Silva", none, none⟩] =
      some (.dupName (str "ana") (str "SILVA")) := by
  refine ⟨?_, ?_, by decide⟩
  · intro l c hb hid hex
    obtain ⟨e, he, hf, hs⟩ := hex
    obtain ⟨htf, hts⟩ := basic_none_truthy c hb
    have hany : l.any
        (fun x => mkNameKey x.fullName x.surname ==
          mkNameKey c.fullName c.surname) = true :=
      List.any_eq_true.mpr ⟨e, he, by rw [beq_iff_eq]; exact mkNameKey_eq_of hf hs⟩
    unfold validateContactCreation
    rw [hb, hid]
    unfold validateDuplicateFields
    rw [show toPatch c = ⟨some c.fullName, some c.surname, c.email, c.phone⟩
      from rfl]
    rw [nameDupCheck_some c.fullName c.surname c.email c.phone l htf hts hany]
  · intro l c hall f s hcontra
    unfold validateContactCreation at hcontra
    cases hb : validateBasicFields c with
    | some e =>
      rw [hb] at hcontra
      injection hcontra with h2
      rcases basic_shape c e hb with h | h | h | h <;> simp [h] at h2
    | none =>
      rw [hb] at hcontra
      cases hid : creationIdCheck c l with
      | some e =>
        rw [hid] at hcontra
        injection hcontra with h2
        obtain ⟨i, hi⟩ := creationIdCheck_shape c l e hid
        simp [hi] at h2
      | none =>
        rw [hid] at hcontra
        unfold validateDuplicateFields at hcontra
        cases hn : nameDupCheck (toPatch c) l with
        | some e =>
          rw [hn] at hcontra
          obtain ⟨f2, s2, hpf, hps, he2, x, hx, hkey⟩ :=
            nameDupCheck_inv (toPatch c) l e hn
          rw [show (toPatch c).fullName = some c.fullName from rfl] at hpf
          rw [show (toPatch c).surname = some c.surname from rfl] at hps
          injection hpf with hpf
          injection hps with hps
          subst hpf
          subst hps
          have hsur := mkNameKey_surname_eq (hall x hx).1 hkey
          exact (hall x hx).2 hsur
        | none =>
          rw [hn] at hcontra
          cases hm : emailDupCheck (toPatch c) l with
          | some e =>
            rw [hm] at hcontra
            injection hcontra with h2
            obtain ⟨em, hem⟩ := emailDupCheck_shape (toPatch c) l e hm
            simp [hem] at h2
          | none =>
            rw [hm] at hcontra
            obtain ⟨ph, hph⟩ := phoneDupCheck_shape (toPatch c) l _ hcontra
            simp at hph

end Contacts

namespace Contacts

/-- Witness for **C1**: part (1) applied to the concrete Ana/Silva record
set, every hypothesis discharged by evaluation. -/
theorem claim_C1_witness :
    validateContactCreation ⟨none, str "ana", str "SILVA", none, none⟩
      [⟨CId.num 1, str "Ana", str "Silva", none, none⟩] =
      some (.dupName (str "ana") (str "SILVA")) :=
  claim_C1.1 [⟨CId.num 1, str "Ana", str "Silva", none, none⟩]
    ⟨none, str "ana", str "SILVA", none, none⟩ (by decide) (by decide)
    ⟨⟨CId.num 1, str "Ana", str "Silva", none, none⟩, by decide, by decide,
      by decide⟩

end Contacts

namespace Contacts

/-- **C5 (amended)** — for a supplied *truthy* id (nonzero number or
nonempty string), creation validation rejects an id collision with the
id-collision error once the basic checks pass; falsy ids (`0`, `""`) skip
the gate entirely. -/
theorem claim_C5 (l : List Contact) (c : ContactValidation) (i : CId)
    (hci : c.id = some i) (ht : cidTruthy i = true)
    (hb : validateBasicFields c = none)
    (hcol : l.any (fun x => x.id == i) = true) :
    validateContactCreation c l = some (.dupId i) := by
  unfold validateContactCreation
  rw [hb]
  have hgate : creationIdCheck c l = some (.dupId i) := by
    unfold creationIdCheck validateDuplicateId
    rw [hci]
    simp [ht, hcol]
  rw [hgate]

/-- Witness for **C5**: a truthy id (`7`) colliding with an existing
record is rejected with the id-collision error. -/
theorem claim_C5_witness :
    validateContactCreation
      ⟨some (CId.num 7), str "Ana", str "Silva", none, none⟩
      [⟨CId.num 7, str "Bob", str "Stone", none, none⟩] =
      some (.dupId (CId.num 7)) :=
  claim_C5 [⟨CId.num 7, str "Bob", str "Stone", none, none⟩]
    ⟨some (CId.num 7), str "Ana", str "Silva", none, none⟩ (CId.num 7)
    rfl (by decide) (by decide) (by decide)

end Contacts

namespace Contacts

/-- Passing the basic checks forces the phone rule to have passed. -/
theorem basic_none_phoneCond (c : ContactValidation)
    (h : validateBasicFields c = none) :
    (match c.phone with
     | some p => strTruthy p && (digitsOnly p).length < 8
     | none => false) = false := by
  unfold validateBasicFields at h
  split_ifs at h with h1 h2 h3 h4
  cases hc : (match c.phone with
    | some p => strTruthy p && (digitsOnly p).length < 8
    | none => false)
  · rfl
  · exact absurd hc h4

/-- **C6 (amended)** — a present *non-empty* phone stripping to fewer than
8 digits is always rejected by creation and update validation, and the
error is precisely the phone-length error once the earlier checks pass; a
present-but-empty phone is skipped (see the counterexample).  The phone
rule itself accepts `"(11) 9999-888"` and rejects `"12345"`. -/
theorem claim_C6 :
    (∀ (l : List Contact) (c : ContactValidation) (p : Str),
      c.phone = some p → strTruthy p = true → (digitsOnly p).length < 8 →
      (validateContactCreation c l).isSome = true ∧
      (validateBasicFields ⟨c.id, c.fullName, c.surname, c.email, none⟩ =
          none →
        validateContactCreation c l = some .phoneTooShort)) ∧
    (∀ (l : List Contact) (t : CId) (c : ContactPatch) (p : Str),
      c.phone = some p → strTruthy p = true → (digitsOnly p).length < 8 →
      (validateContactUpdate c l t).isSome = true ∧
      (updateNameCheck c = none → updateEmailCheck c = none →
        validateContactUpdate c l t = some .phoneTooShort)) ∧
    validateBasicFields
      ⟨none, str "Ana", str "Silva", none, some (str "(11) 9999-888")⟩ =
      none ∧
    validateBasicFields
      ⟨none, str "Ana", str "Silva", none, some (str "12345")⟩ =
      some .phoneTooShort := by
  refine ⟨?_, ?_, by decide, by decide⟩
  · intro l c p hp ht hd
    have hphone : (match c.phone with
        | some q => strTruthy q && (digitsOnly q).length < 8
        | none => false) = true := by
      rw [hp]
      simp [ht, hd]
    have hnotnone : ∀ e, validateBasicFields c = some e →
        (validateContactCreation c l).isSome = true := by
      intro e hbe
      unfold validateContactCreation
      rw [hbe]
      rfl
    constructor
    · cases hbf : validateBasicFields c with
      | some e => exact hnotnone e hbf
      | none =>
        have := basic_none_phoneCond c hbf
        rw [hphone] at this
        exact absurd this (by simp)
    · intro hb2
      have hbc : validateBasicFields c = some .phoneTooShort := by
        unfold validateBasicFields at hb2 ⊢
        dsimp only at hb2
        split_ifs at hb2 ⊢ <;> simp_all
      unfold validateContactCreation
      rw [hbc]
  · intro l t c p hp ht hd
    have hupc : updatePhoneCheck c = some .phoneTooShort := by
      unfold updatePhoneCheck
      rw [hp]
      simp [ht, hd]
    constructor
    · unfold validateContactUpdate
      cases h1 : updateNameCheck c with
      | some e => rfl
      | none =>
        cases h2 : updateEmailCheck c with
        | some e => rfl
        | none => rw [hupc]; rfl
    · intro hn he
      unfold validateContactUpdate
      rw [hn, he, hupc]

/-- Witness for **C6**: phone `"123"` (3 digits) makes creation fail with
exactly the phone-length error. -/
theorem claim_C6_witness :
    validateContactCreation
      ⟨none, str "Ana", str "Silva", none, some (str "123")⟩ [] =
      some .phoneTooShort :=
  (claim_C6.1 [] ⟨none, str "Ana", str "Silva", none, some (str "123")⟩
    (str "123") rfl (by decide) (by decide)).2 (by decide)

end Contacts

namespace Contacts

/-- **C4 (amended)** — update validation excludes every record whose id
equals the target id before the duplicate check, so updating a record to
its own current values yields no error, *provided* (as the counterexample
forces) no record with a different id shares a normalized name-pair,
email, or phone with those values. -/
theorem claim_C4 (l : List Contact) (t : CId) (r : Contact)
    (hmem : r ∈ l) (hid : r.id = t)
    (hf : 2 ≤ (jsTrim r.fullName).length)
    (hs : 3 ≤ (jsTrim r.surname).length)
    (he : updateEmailCheck ⟨some r.fullName, some r.surname, r.email,
      r.phone⟩ = none)
    (hp : updatePhoneCheck ⟨some r.fullName, some r.surname, r.email,
      r.phone⟩ = none)
    (hconf : ∀ x ∈ l, x.id ≠ t →
      mkNameKey x.fullName x.surname ≠ mkNameKey r.fullName r.surname ∧
      noEmailConflict r x = true ∧ noPhoneConflict r x = true) :
    validateContactUpdate ⟨some r.fullName, some r.surname, r.email, r.phone⟩
      l t = none := by
  have hn : updateNameCheck
      ⟨some r.fullName, some r.surname, r.email, r.phone⟩ = none := by
    unfold updateNameCheck
    dsimp only
    split_ifs with a b
    · omega
    · omega
    · rfl
  unfold validateContactUpdate
  rw [hn, he, hp]
  have hfl : ∀ x ∈ l.filter (fun x => !(x.id == t)), x ∈ l ∧ x.id ≠ t := by
    intro x hx
    have h2 := List.mem_filter.mp hx
    refine ⟨h2.1, ?_⟩
    simpa using h2.2
  have h1 : nameDupCheck ⟨some r.fullName, some r.surname, r.email, r.phone⟩
      (l.filter (fun x => !(x.id == t))) = none := by
    unfold nameDupCheck
    dsimp only
    have hany : (l.filter (fun x => !(x.id == t))).any
        (fun e => mkNameKey e.fullName e.surname ==
          mkNameKey r.fullName r.surname) = false := by
      rw [List.any_eq_false]
      intro x hx
      have hx2 := hfl x hx
      have := (hconf x hx2.1 hx2.2).1
      simpa using this
    simp [hany]
  have h2 : emailDupCheck ⟨some r.fullName, some r.surname, r.email, r.phone⟩
      (l.filter (fun x => !(x.id == t))) = none := by
    unfold emailDupCheck
    dsimp only
    cases hre : r.email with
    | none => rfl
    | some e =>
      have hany : (l.filter (fun x => !(x.id == t))).any (emailMatches e) =
          false := by
        rw [List.any_eq_false]
        intro x hx
        have hx2 := hfl x hx
        have hc := (hconf x hx2.1 hx2.2).2.1
        unfold noEmailConflict at hc
        rw [hre] at hc
        simpa using hc
      simp [hany]
  have h3 : phoneDupCheck ⟨some r.fullName, some r.surname, r.email, r.phone⟩
      (l.filter (fun x => !(x.id == t))) = none := by
    unfold phoneDupCheck
    dsimp only
    cases hrp : r.phone with
    | none => rfl
    | some p =>
      have hany : (l.filter (fun x => !(x.id == t))).any (phoneMatches p) =
          false := by
        rw [List.any_eq_false]
        intro x hx
        have hx2 := hfl x hx
        have hc := (hconf x hx2.1 hx2.2).2.2
        unfold noPhoneConflict at hc
        rw [hrp] at hc
        simpa using hc
      simp [hany]
  unfold validateDuplicateFields
  rw [h1, h2, h3]

/-- Witness for **C4**: a singleton record set — updating the record to
its own values passes with no conflicting neighbour. -/
theorem claim_C4_witness :
    validateContactUpdate
      ⟨some c4target.fullName, some c4target.surname, c4target.email,
        c4target.phone⟩ [c4target] (CId.num 1) = none :=
  claim_C4 [c4target] (CId.num 1) c4target (by decide) (by decide)
    (by decide) (by decide) (by decide) (by decide) (by decide)

end Contacts

namespace Contacts

/-- Two option keys are both present, truthy, and equal. -/
def truthyKeyEq : Option Str → Option Str → Bool
  | some k1, some k2 => strTruthy k1 && strTruthy k2 && k1 == k2
  | _, _ => false

/-- Two records collide on a truthy email key, a truthy phone key, or the
(always-present) name key — the matching policy of the deduplicator. -/
def sharesKey (a b : Contact) : Bool :=
  truthyKeyEq (emailKeyOf a) (emailKeyOf b) ||
    truthyKeyEq (phoneKeyOf a) (phoneKeyOf b) ||
    (nameKeyOf a == nameKeyOf b)

/-- No key is ever seen in an empty seen-set. -/
theorem keySeen_nil (k : Option Str) : keySeen k [] = false := by
  cases k <;> simp [keySeen]

/-- Not seen after adding a key means not seen before, and distinct from
the added truthy key. -/
theorem keySeen_keyAdd_false (k k' : Option Str) (s : List Str)
    (h : keySeen k (keyAdd k' s) = false) :
    keySeen k s = false ∧ truthyKeyEq k' k = false := by
  cases k' with
  | none => exact ⟨h, rfl⟩
  | some a =>
    cases k with
    | none => exact ⟨rfl, rfl⟩
    | some b =>
      unfold keyAdd at h
      unfold keySeen at h ⊢
      unfold truthyKeyEq
      dsimp only at h ⊢
      by_cases ha : strTruthy a = true
      · rw [if_pos ha] at h
        by_cases hb : strTruthy b = true
        · simp only [hb, Bool.true_and, List.contains_cons,
            Bool.or_eq_false_iff] at h ⊢
          refine ⟨h.2, ?_⟩
          rw [Bool.and_eq_false_iff]
          right
          rw [beq_eq_false_iff_ne] at h ⊢
          exact fun he => h.1 he.symm
        · have hb2 : strTruthy b = false := by simpa using hb
          simp [hb2]
      · have ha2 : strTruthy a = false := by simpa using ha
        rw [if_neg ha] at h
        refine ⟨h, ?_⟩
        simp [ha2]

/-- Seen after adding a key means seen before, or equal to the added
truthy key. -/
theorem keySeen_keyAdd_true (k k' : Option Str) (s : List Str)
    (h : keySeen k (keyAdd k' s) = true) :
    keySeen k s = true ∨ truthyKeyEq k' k = true := by
  cases k' with
  | none => exact Or.inl h
  | some a =>
    cases k with
    | none => simp [keySeen] at h
    | some b =>
      unfold keyAdd at h
      unfold keySeen at h ⊢
      unfold truthyKeyEq
      dsimp only at h ⊢
      by_cases ha : strTruthy a = true
      · rw [if_pos ha] at h
        simp only [Bool.and_eq_true, List.contains_cons,
          Bool.or_eq_true] at h
        rcases h with ⟨hb, hba | hbs⟩
        · right
          rw [beq_iff_eq] at hba
          simp [ha, hb, beq_iff_eq, hba.symm]
        · left
          simp only [hb, hbs, Bool.true_and]
      · rw [if_neg ha] at h
        exact Or.inl h

end Contacts

namespace Contacts

/-- Invariant of the dedup forward pass: the kept list is a sublist of the
input, kept records carry no key from the incoming seen-sets, kept records
are pairwise key-disjoint, and every input record is kept, already seen,
or matched by a kept record. -/
theorem dedupAux_spec (l : List Contact) : ∀ sE sP sN,
    (dedupAux l sE sP sN).1.Sublist l ∧
    (∀ c ∈ (dedupAux l sE sP sN).1,
      keySeen (emailKeyOf c) sE = false ∧
      keySeen (phoneKeyOf c) sP = false ∧
      sN.contains (nameKeyOf c) = false) ∧
    (dedupAux l sE sP sN).1.Pairwise (fun a b => sharesKey a b = false) ∧
    (∀ c ∈ l, c ∈ (dedupAux l sE sP sN).1 ∨
      (keySeen (emailKeyOf c) sE || keySeen (phoneKeyOf c) sP ||
        sN.contains (nameKeyOf c)) = true ∨
      ∃ k ∈ (dedupAux l sE sP sN).1, sharesKey k c = true) := by
  induction l with
  | nil =>
    intro sE sP sN
    simp [dedupAux]
  | cons c rest ih =>
    intro sE sP sN
    by_cases hdup : (keySeen (emailKeyOf c) sE || keySeen (phoneKeyOf c) sP ||
        sN.contains (nameKeyOf c)) = true
    · have hred : (dedupAux (c :: rest) sE sP sN).1 =
          (dedupAux rest sE sP sN).1 := by
        simp only [dedupAux]
        rw [if_pos hdup]
      obtain ⟨ihA, ihB, ihC, ihD⟩ := ih sE sP sN
      rw [hred]
      refine ⟨ihA.cons c, ihB, ihC, ?_⟩
      intro x hx
      rcases List.mem_cons.mp hx with rfl | hx2
      · exact Or.inr (Or.inl hdup)
      · exact ihD x hx2
    · have h3 : (keySeen (emailKeyOf c) sE = false ∧
          keySeen (phoneKeyOf c) sP = false) ∧
          sN.contains (nameKeyOf c) = false := by
        simpa only [Bool.or_eq_true, not_or, Bool.not_eq_true] using hdup
      have hred : (dedupAux (c :: rest) sE sP sN).1 =
          c :: (dedupAux rest (keyAdd (emailKeyOf c) sE)
            (keyAdd (phoneKeyOf c) sP) (nameKeyOf c :: sN)).1 := by
        simp only [dedupAux]
        rw [if_neg hdup]
      obtain ⟨ihA, ihB, ihC, ihD⟩ := ih (keyAdd (emailKeyOf c) sE)
        (keyAdd (phoneKeyOf c) sP) (nameKeyOf c :: sN)
      rw [hred]
      refine ⟨ihA.cons₂ c, ?_, ?_, ?_⟩
      · intro x hx
        rcases List.mem_cons.mp hx with rfl | hx2
        · exact ⟨h3.1.1, h3.1.2, h3.2⟩
        · obtain ⟨hxE, hxP, hxN⟩ := ihB x hx2
          refine ⟨(keySeen_keyAdd_false _ _ _ hxE).1,
            (keySeen_keyAdd_false _ _ _ hxP).1, ?_⟩
          rw [List.contains_cons] at hxN
          exact (Bool.or_eq_false_iff.mp hxN).2
      · refine List.Pairwise.cons ?_ ihC
        intro b hb
        obtain ⟨hxE, hxP, hxN⟩ := ihB b hb
        have e2 := (keySeen_keyAdd_false _ _ _ hxE).2
        have p2 := (keySeen_keyAdd_false _ _ _ hxP).2
        have n2 : (nameKeyOf c == nameKeyOf b) = false := by
          rw [List.contains_cons] at hxN
          have hne := (Bool.or_eq_false_iff.mp hxN).1
          rw [beq_eq_false_iff_ne] at hne ⊢
          exact fun he => hne he.symm
        simp [sharesKey, e2, p2, n2]
      · intro x hx
        rcases List.mem_cons.mp hx with rfl | hx2
        · exact Or.inl (List.mem_cons_self _ _)
        · rcases ihD x hx2 with hmem | hseen | ⟨k, hk, hsh⟩
          · exact Or.inl (List.mem_cons_of_mem _ hmem)
          · simp only [Bool.or_eq_true] at hseen
            rcases hseen with (hE2 | hP2) | hN2
            · rcases keySeen_keyAdd_true _ _ _ hE2 with h | h
              · exact Or.inr (Or.inl (by simp [h]))
              · exact Or.inr (Or.inr ⟨c, List.mem_cons_self _ _,
                  by simp [sharesKey, h]⟩)
            · rcases keySeen_keyAdd_true _ _ _ hP2 with h | h
              · exact Or.inr (Or.inl (by simp [h]))
              · exact Or.inr (Or.inr ⟨c, List.mem_cons_self _ _,
                  by simp [sharesKey, h]⟩)
            · rw [List.contains_cons] at hN2
              simp only [Bool.or_eq_true] at hN2
              rcases hN2 with h | h
              · refine Or.inr (Or.inr ⟨c, List.mem_cons_self _ _, ?_⟩)
                rw [beq_iff_eq] at h
                simp [sharesKey, h]
              · refine Or.inr (Or.inl ?_)
                have hm : nameKeyOf x ∈ sN := by simpa using h
                simp [hm]
          · exact Or.inr (Or.inr ⟨k, List.mem_cons_of_mem _ hk, hsh⟩)

end Contacts

namespace Contacts

/-- **C3 (amended)** — on the spec's four-record example the records with
ids 1 and 3 survive, in order, with `removedCount = 2`.  In general the
kept list is a subsequence of the input, survivors are pairwise disjoint
on all three normalized keys, and every input record is either kept or
matches a kept record on email, phone, or name key.  (The claim's "first
record for any key survives" fails when another key of that record was
already seen — see the counterexample.) -/
theorem claim_C3 :
    ((removeDuplicateContacts [c3r1, c3r2, c3r3, c3r4]).cleaned =
        [c3r1, c3r3] ∧
      (removeDuplicateContacts [c3r1, c3r2, c3r3, c3r4]).removidos = 2) ∧
    ∀ (l : List Contact),
      (removeDuplicateContacts l).cleaned.Sublist l ∧
      (removeDuplicateContacts l).cleaned.Pairwise
        (fun a b => sharesKey a b = false) ∧
      (∀ c ∈ l, c ∈ (removeDuplicateContacts l).cleaned ∨
        ∃ k ∈ (removeDuplicateContacts l).cleaned, sharesKey k c = true) := by
  refine ⟨by decide, ?_⟩
  intro l
  obtain ⟨hA, hB, hC, hD⟩ := dedupAux_spec l [] [] []
  have hcl : (removeDuplicateContacts l).cleaned = (dedupAux l [] [] []).1 :=
    rfl
  rw [hcl]
  refine ⟨hA, hC, ?_⟩
  intro c hc
  rcases hD c hc with h | h | h
  · exact Or.inl h
  · rw [keySeen_nil, keySeen_nil] at h
    simpa using h
  · exact Or.inr h

/-- Witness for **C3**: the coverage clause applied to a singleton list. -/
theorem claim_C3_witness :
    c3r1 ∈ (removeDuplicateContacts [c3r1]).cleaned ∨
      ∃ k ∈ (removeDuplicateContacts [c3r1]).cleaned, sharesKey k c3r1 = true :=
  (claim_C3.2 [c3r1]).2.2 c3r1 (by decide)

end Contacts

namespace Contacts

/-- Splitting never yields the empty list of lines. -/
theorem splitNL_ne_nil (s : Str) : splitNL s ≠ [] := by
  cases s with
  | nil => simp [splitNL]
  | cons c cs =>
    unfold splitNL
    cases h : splitNL cs with
    | nil => simp
    | cons l ls =>
      by_cases hc : c = '\n' <;> simp [hc]

/-- A newline-free string splits into itself alone. -/
theorem splitNL_no_nl (l : Str) (h : '\n' ∉ l) : splitNL l = [l] := by
  induction l with
  | nil => rfl
  | cons c cs ih =>
    have hc : c ≠ '\n' := fun he => h (he ▸ List.mem_cons_self c cs)
    have hcs : '\n' ∉ cs := fun hm => h (List.mem_cons_of_mem c hm)
    unfold splitNL
    rw [ih hcs]
    simp [hc]

/-- Splitting after a newline-free prefix peels off that prefix. -/
theorem splitNL_append (l rest : Str) (h : '\n' ∉ l) :
    splitNL (l ++ '\n' :: rest) = l :: splitNL rest := by
  induction l with
  | nil =>
    show splitNL ('\n' :: rest) = [] :: splitNL rest
    conv_lhs => rw [splitNL]
    cases hr : splitNL rest with
    | nil => exact absurd hr (splitNL_ne_nil rest)
    | cons r rs => simp
  | cons c cs ih =>
    have hc : c ≠ '\n' := fun he => h (he ▸ List.mem_cons_self c cs)
    have hcs : '\n' ∉ cs := fun hm => h (List.mem_cons_of_mem c hm)
    show splitNL (c :: (cs ++ '\n' :: rest)) = (c :: cs) :: splitNL rest
    conv_lhs => rw [splitNL]
    rw [ih hcs]
    simp [hc]

/-- Splitting a newline-joined nonempty list of newline-free lines
recovers the lines. -/
theorem splitNL_joinWith (ls : List Str) (hne : ls ≠ [])
    (h : ∀ l ∈ ls, '\n' ∉ l) : splitNL (joinWith ['\n'] ls) = ls := by
  induction ls with
  | nil => exact absurd rfl hne
  | cons x xs ih =>
    cases xs with
    | nil =>
      show splitNL (joinWith ['\n'] [x]) = [x]
      exact splitNL_no_nl x (h x (List.mem_cons_self x []))
    | cons y ys =>
      have hx : '\n' ∉ x := h x (List.mem_cons_self x (y :: ys))
      have hrest : ∀ l ∈ y :: ys, '\n' ∉ l :=
        fun l hl => h l (List.mem_cons_of_mem x hl)
      show splitNL (x ++ ['\n'] ++ joinWith ['\n'] (y :: ys)) = x :: y :: ys
      rw [List.append_assoc]
      rw [show (['\n'] ++ joinWith ['\n'] (y :: ys)) =
        '\n' :: joinWith ['\n'] (y :: ys) from rfl]
      rw [splitNL_append x (joinWith ['\n'] (y :: ys)) hx]
      rw [ih (by simp) hrest]

/-- A trimmed, nonempty, well-parsing line contributes its record to
`readLines`. -/
theorem readLines_cons_good (a : Str) (ls : List Str) (j : JVal)
    (h1 : jsTrim a = a) (h2 : a.isEmpty = false) (h3 : parseJson a = some j)
    (h4 : isValidContact j = true) :
    readLines (a :: ls) = j :: readLines ls := by
  unfold readLines
  simp only [List.map_cons, h1]
  rw [List.filter_cons_of_pos (by simp [h2])]
  rw [List.filterMap_cons]
  simp [h3, h4]

/-- Reading back the canonical serializations of well-behaved records
recovers exactly those records. -/
theorem readLines_map_stringify (js : List JVal)
    (h : ∀ j ∈ js, jsTrim (stringifyJson j) = stringifyJson j ∧
      (stringifyJson j).isEmpty = false ∧
      parseJson (stringifyJson j) = some j ∧ isValidContact j = true) :
    readLines (js.map stringifyJson) = js := by
  induction js with
  | nil => rfl
  | cons j rest ih =>
    have hj := h j (List.mem_cons_self j rest)
    rw [List.map_cons,
      readLines_cons_good _ _ j hj.1 hj.2.1 hj.2.2.1 hj.2.2.2,
      ih (fun x hx => h x (List.mem_cons_of_mem j hx))]

/-- Every record produced by a read passed the shape check. -/
theorem readContactFile_valid (content : Str) :
    ∀ j ∈ readContactFile content, isValidContact j = true := by
  intro j hj
  unfold readContactFile readLines at hj
  obtain ⟨line, hline, hf⟩ := List.mem_filterMap.mp hj
  revert hf
  cases hp : parseJson line with
  | none => simp
  | some v =>
    by_cases hv : isValidContact v = true
    · simp only [hv, if_true]
      intro he
      injection he with he
      rw [← he]
      exact hv
    · simp [hv]

/-- Saving a list of shape-valid records serializes all of them. -/
theorem saveContactList_all_valid (js : List JVal)
    (h : ∀ j ∈ js, isValidContact j = true) :
    saveContactList js = joinWith ['\n'] (js.map stringifyJson) := by
  unfold saveContactList
  rw [List.filter_eq_self.mpr h]

/-- Reading a file that is the canonical join of well-behaved records
recovers exactly those records. -/
theorem readContactFile_canonical (js : List JVal) (hne : js ≠ [])
    (h : ∀ j ∈ js, jsTrim (stringifyJson j) = stringifyJson j ∧
      (stringifyJson j).isEmpty = false ∧
      '\n' ∉ stringifyJson j ∧
      parseJson (stringifyJson j) = some j ∧ isValidContact j = true) :
    readContactFile (joinWith ['\n'] (js.map stringifyJson)) = js := by
  unfold readContactFile
  rw [splitNL_joinWith (js.map stringifyJson)
    (by
      intro hj
      exact hne (List.map_eq_nil_iff.mp hj))
    (by
      intro l hl
      obtain ⟨j, hj, hje⟩ := List.mem_map.mp hl
      rw [← hje]
      exact (h j hj).2.2.1)]
  exact readLines_map_stringify js
    (fun j hj => ⟨(h j hj).1, (h j hj).2.1, (h j hj).2.2.2.1,
      (h j hj).2.2.2.2⟩)

/-- **C7 (amended)** — one load–save cycle need not reproduce the file
byte-for-byte (see the counterexample); what holds is idempotence from the
first cycle on: provided each loaded record round-trips through the
serializer (canonical line, no blank padding, no embedded newline),
running the cycle twice equals running it once. -/
theorem claim_C7 (content : Str)
    (h : ∀ j ∈ readContactFile content,
      jsTrim (stringifyJson j) = stringifyJson j ∧
      (stringifyJson j).isEmpty = false ∧
      '\n' ∉ stringifyJson j ∧
      parseJson (stringifyJson j) = some j) :
    loadSaveCycle (loadSaveCycle content) = loadSaveCycle content := by
  have hval : ∀ j ∈ readContactFile content, isValidContact j = true :=
    readContactFile_valid content
  have hsave : loadSaveCycle content =
      joinWith ['\n'] ((readContactFile content).map stringifyJson) :=
    saveContactList_all_valid (readContactFile content) hval
  cases hjse : readContactFile content with
  | nil =>
    rw [hsave, hjse]
    rfl
  | cons j0 rest =>
    have hread2 : readContactFile
        (joinWith ['\n'] ((readContactFile content).map stringifyJson)) =
        readContactFile content :=
      readContactFile_canonical (readContactFile content)
        (by rw [hjse]; simp)
        (fun j hj => ⟨(h j hj).1, (h j hj).2.1, (h j hj).2.2.1,
          (h j hj).2.2.2, hval j hj⟩)
    calc loadSaveCycle (loadSaveCycle content)
        = saveContactList (readContactFile (loadSaveCycle content)) := rfl
      _ = saveContactList (readContactFile content) := by rw [hsave, hread2]
      _ = loadSaveCycle content := rfl

/-- Witness for **C7**: a file holding one canonical record line is a
fixed point of the cycle, so the double cycle equals the single cycle. -/
theorem claim_C7_witness :
    loadSaveCycle (loadSaveCycle c2goodLine1) = loadSaveCycle c2goodLine1 :=
  claim_C7 c2goodLine1 (by
    intro j hj
    rw [show readContactFile c2goodLine1 = [c2obj1] from rfl] at hj
    have hje : j = c2obj1 := by simpa using hj
    subst hje
    exact ⟨by decide, by decide, by decide, rfl⟩)

end Contacts
